import Mathlib

/-!
# `vault read`: a shallow embedding of `command/read.go`

`ReadCommand.Run` is embedded as a pure function from an environment (the
collaborators the command talks to) and an argument vector to a `Result`: the
way the call ended (an exit code, or a Go run-time panic) together with the
ordered trace of the externally visible actions it performed.

Go strings are byte sequences; they are modelled by Lean strings, i.e. by
valid UTF-8 text.  On such text the byte tests made by the source
(`len(s) == 0`, `path[0] == '/'`, `path[1:]` after a leading `/`) coincide with
the corresponding tests on characters, because `/` is a one-byte character.
-/

namespace Vault.Command

/-! ## Data model -/

/-- Dynamic value stored under a key of `Secret.Data` (a Go `interface{}` as
produced by JSON decoding). -/
inductive Value where
  | str (s : String)
  | number (n : Int)
  | bool (b : Bool)
  | null
  | list (elems : List String)
  | object (entries : List (String × String))
  deriving DecidableEq, Repr

/-- The part of `api.Secret` that `Run` inspects: the `Data` mapping
(`map[string]interface{}`), as an association list. -/
structure Secret where
  Data : List (String × Value)
  deriving DecidableEq, Repr

/-- Go run-time panics that the statements of `Run` can raise. -/
inductive Panic where
  | indexOutOfRange
  | sliceOutOfRange
  | typeAssertion
  deriving DecidableEq, Repr

/-- Externally visible actions of `Run`, in program order. -/
inductive Event where
  /-- A call `c.Ui.Error(msg)`. -/
  | uiError (msg : String)
  /-- A call `c.Ui.Output(msg)`. -/
  | uiOutput (msg : String)
  /-- Bytes written directly to `os.Stdout`. -/
  | stdoutWrite (bytes : String)
  /-- A call `c.Client()`. -/
  | clientAcquire
  /-- A call `client.Logical().Read(path)`. -/
  | storeRead (path : String)
  /-- A call `OutputSecret(c.Ui, format, secret)`. -/
  | outputSecret (format : String) (secret : Secret)
  deriving DecidableEq, Repr

/-- How a call of `Run` ends. -/
inductive Outcome where
  | returned (code : Int)
  | panicked (p : Panic)
  deriving DecidableEq, Repr

/-- Outcome of a call together with the actions performed before it ended. -/
structure Result where
  outcome : Outcome
  trace : List Event
  deriving DecidableEq, Repr

/-- What `flags.Parse(args)` followed by `flags.Args()` yields.  `failed diag`
is a parse error, `diag` being the messages the flag package passed to
`c.Ui.Error` (through `flags.Usage`) while failing.  `parsed sets rest` is a successful parse: `sets`
lists, in order, the `Set(value)` calls made on registered flags and `rest` is
the remaining positional arguments. -/
inductive ParseOutcome where
  | failed (diag : List String)
  | parsed (sets : List (String × String)) (rest : List String)

/-- Collaborators of `ReadCommand.Run` that live outside `read.go`. -/
structure Env where
  /-- The result of `flags.Parse` on the flag set built by `c.Meta.FlagSet`. -/
  flagsParse : List String → ParseOutcome
  /-- The value of `reflect.TypeOf(c.Ui).String()`. -/
  uiType : String
  /-- The text of `meta.GeneralOptionsUsage()`. -/
  generalOptionsUsage : String
  /-- The result of `c.Client()`: `none` when it succeeds, `some e` when it fails with an
  error whose message is `e` -/
  Client : Option String
  /-- The result of `client.Logical().Read(path)`: the returned secret (`none` for nil) and
  the returned error (`none` for nil) -/
  Read : String → Option Secret × Option String
  /-- The exit code of `OutputSecret(c.Ui, format, secret)`. -/
  OutputSecret : String → Secret → Int

/-! ## `fmt.Fprintf` with a format string and no operands -/

/-- Flag characters accepted after a percent sign. -/
def isFlagChar (c : Char) : Bool :=
  c == '#' || c == '0' || c == '+' || c == '-' || c == ' '

/-- Go's `fmt.tooLarge`: guard against absurdly long numbers in a format. -/
def tooLarge (x : Nat) : Bool := x > 1000000

/-- Go's `fmt.parsenum` on the text between `start` and `end`: the number read,
whether a digit was read, and the text left. On overflow the scan gives up at `end`. -/
def parsenum : List Char → Nat → Bool → Nat × Bool × List Char
  | [], num, isnum => (num, isnum, [])
  | c :: cs, num, isnum =>
    if '0' ≤ c ∧ c ≤ '9' then
      if tooLarge num then (0, false, [])
      else parsenum cs (num * 10 + (c.toNat - '0'.toNat)) true
    else (num, isnum, c :: cs)

/-- Go's `fmt.parseArgNumber` on text that starts with `[`: the zero-based index,
the number of characters to skip, and whether the index was well formed. -/
def parseArgNumber (format : List Char) : Int × Nat × Bool :=
  if format.length < 3 then (0, 1, false)
  else
    let inner := (format.drop 1).takeWhile (fun c => c != ']')
    if inner.length + 1 < format.length then
      let i := inner.length + 1
      match parsenum inner 0 false with
      | (width, ok, left) =>
        if !ok || !left.isEmpty then (0, i + 1, false)
        else ((width : Int) - 1, i + 1, true)
    else (0, 1, false)

/-- Go's `(*pp).argNumber` with `numArgs = 0`: the text left, `found`, and the new
value of `goodArgNum` given its old value. No index is in range when there is
no operand, so any bracket clears `goodArgNum`. -/
def argNumber (format : List Char) (goodArgNum : Bool) : List Char × Bool × Bool :=
  match format with
  | '[' :: _ =>
    match parseArgNumber format with
    | (_, wid, ok) => (format.drop wid, ok, false)
  | _ => (format, false, goodArgNum)

/-- The width part of a verb in `(*pp).doPrintf` with no operand: the text
written, the text left, and the new values of `afterIndex` and `goodArgNum`.
A `*` asks for an operand, which is missing. -/
def doWidth (format : List Char) (afterIndex goodArgNum : Bool) :
    List Char × List Char × Bool × Bool :=
  match format with
  | '*' :: t => ("%!(BADWIDTH)".data, t, false, goodArgNum)
  | _ =>
    match parsenum format 0 false with
    | (_, widPresent, t) => ([], t, afterIndex, goodArgNum && !(afterIndex && widPresent))

/-- The precision part of a verb in `(*pp).doPrintf` with no operand: the text
written, the text left, and the new values of `afterIndex` and `goodArgNum`. -/
def doPrecision (format : List Char) (afterIndex goodArgNum : Bool) :
    List Char × List Char × Bool × Bool :=
  match format with
  | '.' :: t =>
    match argNumber t (goodArgNum && !afterIndex) with
    | (t1, afterIndex1, good1) =>
      match t1 with
      | '*' :: t2 => ("%!(BADPREC)".data, t2, false, good1)
      | _ =>
        match parsenum t1 0 false with
        | (_, _, t2) => ([], t2, afterIndex1, good1)
  | _ => ([], format, afterIndex, goodArgNum)

/-- The verb character of a verb in `(*pp).doPrintf` with no operand: the text
written and the text left. -/
def doVerbChar (format : List Char) (goodArgNum : Bool) : List Char × List Char :=
  match format with
  | [] => ("%!(NOVERB)".data, [])
  | verb :: t =>
    if verb == '%' then (['%'], t)
    else if !goodArgNum then ("%!".data ++ verb :: "(BADINDEX)".data, t)
    else ("%!".data ++ verb :: "(MISSING)".data, t)

/-- One verb of `(*pp).doPrintf` with no operand: `format` is the text right
after a percent sign; the result is the text written and the text left. The
parts are, in order: flags, argument index, width, precision, argument index,
verb character. -/
def doVerb (format : List Char) : List Char × List Char :=
  match argNumber (format.dropWhile isFlagChar) true with
  | (s2, afterIndex2, good2) =>
    match doWidth s2 afterIndex2 good2 with
    | (out3, s3, afterIndex3, good3) =>
      match doPrecision s3 afterIndex3 good3 with
      | (out5, s5, afterIndex5, good5) =>
        match (if !afterIndex5 then argNumber s5 good5 else (s5, afterIndex5, good5)) with
        | (s6, _, good6) =>
          match doVerbChar s6 good6 with
          | (out7, s7) => (out3 ++ out5 ++ out7, s7)

/-- Go's `(*pp).doPrintf` with no operand: text up to a percent sign is copied, then
one verb is processed. `fuel` bounds the number of loop iterations. -/
def doPrintf : Nat → List Char → List Char
  | 0, _ => []
  | _ + 1, [] => []
  | fuel + 1, c :: cs =>
    if c == '%' then
      match doVerb cs with
      | (out, left) => out ++ doPrintf fuel left
    else c :: doPrintf fuel cs

/-- The bytes `fmt.Fprintf(w, format)` writes to `w` when called without
operands. -/
def Fprintf (format : String) : String :=
  ⟨doPrintf (format.length + 1) format.data⟩

/-! ## `strings.TrimSpace` and `ReadCommand.Help` -/

/-- Go's `unicode.IsSpace`: the white space characters of Unicode. -/
def isSpace (c : Char) : Bool :=
  c == '\t' || c == '\n' || c == '\x0b' || c == '\x0c' || c == '\r' || c == ' ' ||
  c.toNat == 0x85 || c.toNat == 0xA0 || c.toNat == 0x1680 ||
  (0x2000 ≤ c.toNat && c.toNat ≤ 0x200a) ||
  c.toNat == 0x2028 || c.toNat == 0x2029 || c.toNat == 0x202f ||
  c.toNat == 0x205f || c.toNat == 0x3000

/-- Go's `strings.TrimSpace`: the string without its leading and trailing white
space. -/
def TrimSpace (s : String) : String :=
  ⟨((s.data.dropWhile isSpace).reverse.dropWhile isSpace).reverse⟩

/-- The method `ReadCommand.Synopsis`. -/
def Synopsis : String := "Read data or secrets from Vault"

/-- The method `ReadCommand.Help`, given the text of `meta.GeneralOptionsUsage()`. -/
def Help (generalOptionsUsage : String) : String :=
  let helpText :=
    "\nUsage: vault read [options] path\n" ++
    "\n" ++
    "  Read data from Vault.\n" ++
    "\n" ++
    "  Reads data at the given path from Vault. This can be used to read\n" ++
    "  secrets and configuration as well as generate dynamic values from\n" ++
    "  materialized backends. Please reference the documentation for the\n" ++
    "  backends in use to determine key structure.\n" ++
    "\n" ++
    "General Options:\n" ++
    generalOptionsUsage ++
    "\nRead Options:\n" ++
    "\n" ++
    "  -format=table           The format for output. By default it is a whitespace-\n" ++
    "                          delimited table. This can also be json or yaml.\n" ++
    "\n" ++
    "  -field=field            If included, the raw value of the specified field\n" ++
    "                          will be output raw to stdout.\n" ++
    "\n"
  TrimSpace helpText

/-! ## `ReadCommand.Run` -/

/-- Value of a string flag variable after parsing: `flags.StringVar` stores the
default into the variable and every `Set` of that flag overwrites it. -/
def flagValue (sets : List (String × String)) (name : String) (dflt : String) : String :=
  sets.foldl (fun cur nv => if nv.1 == name then nv.2 else cur) dflt

/-- Go indexing `xs[0]` on a slice of strings. -/
def argAt0 (args : List String) : Except Panic String :=
  match args with
  | [] => .error .indexOutOfRange
  | a :: _ => .ok a

/-- Go indexing `s[0]` on a string. -/
def charAt0 (s : String) : Except Panic Char :=
  match s.data with
  | [] => .error .indexOutOfRange
  | c :: _ => .ok c

/-- Go slicing `s[1:]` on a string whose first character is one byte long. -/
def sliceFrom1 (s : String) : Except Panic String :=
  match s.data with
  | [] => .error .sliceOutOfRange
  | _ :: cs => .ok ⟨cs⟩

/-- The guard of line 34, `len(args) != 1 || len(args[0]) == 0`, with Go's
short-circuit evaluation of `||`. -/
def argsInvalid (args : List String) : Except Panic Bool :=
  if args.length != 1 then .ok true
  else
    match argAt0 args with
    | .error p => .error p
    | .ok a => .ok (a.length == 0)

/-- Lines 40-43: `path := args[0]; if path[0] == '/' { path = path[1:] }`. -/
def normalizePath (args : List String) : Except Panic String :=
  match argAt0 args with
  | .error p => .error p
  | .ok path =>
    match charAt0 path with
    | .error p => .error p
    | .ok c => if c == '/' then sliceFrom1 path else .ok path

/-- The type assertion `val.(string)`. -/
def assertString (val : Value) : Except Panic String :=
  match val with
  | .str s => .ok s
  | _ => .error .typeAssertion

/-- Lines 64-85 of `Run`: what happens once a non-nil secret was read.
`done` is the trace so far. -/
def output (env : Env) (format field : String) (secret : Secret) (done : List Event) : Result :=
  if field != "" then
    match secret.Data.lookup field with
    | some val =>
      match assertString val with
      | .error p => ⟨.panicked p, done⟩
      | .ok s =>
        if env.uiType == "*cli.BasicUi" then
          ⟨.returned 0, done ++ [.stdoutWrite (Fprintf s)]⟩
        else
          ⟨.returned 0, done ++ [.uiOutput s]⟩
    | none =>
      ⟨.returned 1, done ++ [.uiError ("Field " ++ field ++ " not present in secret")]⟩
  else
    ⟨.returned (env.OutputSecret format secret), done ++ [.outputSecret format secret]⟩

/-- The method `ReadCommand.Run` (lines 19-86). -/
def Run (env : Env) (args : List String) : Result :=
  match env.flagsParse args with
  | .failed diag => ⟨.returned 1, diag.map .uiError⟩
  | .parsed sets rest =>
    let format := flagValue sets "format" "table"
    let field := flagValue sets "field" ""
    match argsInvalid rest with
    | .error p => ⟨.panicked p, []⟩
    | .ok true =>
      ⟨.returned 1,
        [.uiError "read expects one argument", .uiError (Help env.generalOptionsUsage)]⟩
    | .ok false =>
      match normalizePath rest with
      | .error p => ⟨.panicked p, []⟩
      | .ok path =>
        match env.Client with
        | some err =>
          ⟨.returned 2, [.clientAcquire, .uiError ("Error initializing client: " ++ err)]⟩
        | none =>
          match env.Read path with
          | (_, some err) =>
            ⟨.returned 1, [.clientAcquire, .storeRead path,
              .uiError ("Error reading " ++ path ++ ": " ++ err)]⟩
          | (none, none) =>
            ⟨.returned 1, [.clientAcquire, .storeRead path,
              .uiError ("No value found at " ++ path)]⟩
          | (some secret, none) =>
            output env format field secret [.clientAcquire, .storeRead path]

/-! ## Observations on a trace -/

/-- Paths handed to `SecretStore.Read`, in order. -/
def readPaths (trace : List Event) : List String :=
  trace.filterMap (fun e => match e with | .storeRead p => some p | _ => none)

/-- Everything written directly to standard output, concatenated. -/
def stdoutBytes (trace : List Event) : String :=
  trace.foldl (fun acc e => match e with | .stdoutWrite b => acc ++ b | _ => acc) ""

/-- Calls of the Formatter (`OutputSecret`), in order. -/
def formatterCalls (trace : List Event) : List (String × Secret) :=
  trace.filterMap (fun e => match e with | .outputSecret f s => some (f, s) | _ => none)

/-- The positional argument without one leading `/`, when it has one. -/
def withoutLeadingSlash (p : String) : String :=
  match p.data with
  | '/' :: cs => ⟨cs⟩
  | _ => p

/-- Whether an event is an output action (a direct write to standard output,
a `Ui.Output` call, or a Formatter call). -/
def Event.isOutput : Event → Bool
  | .stdoutWrite _ => true
  | .uiOutput _ => true
  | .outputSecret _ _ => true
  | _ => false

/-! ## A concrete flag parser for string flags -/

/-- Result of one step of `flag.(*FlagSet).parseOne`. -/
inductive ParseStep where
  | stop (rest : List String)
  | fail
  | set (name value : String) (rest : List String)

/-- Split `name` at the first `=` that is not its first character. -/
def splitAtEquals : List Char → Option (List Char × List Char)
  | [] => none
  | c :: cs =>
    match cs with
    | [] => none
    | d :: ds =>
      if d == '=' then some ([c], ds)
      else
        match splitAtEquals (d :: ds) with
        | some (n, v) => some (c :: n, v)
        | none => none

/-- Go's `flag.(*FlagSet).parseOne` for a flag set whose flags, named in `formal`,
all take a string value. -/
def parseOne (formal : List String) (args : List String) : ParseStep :=
  match args with
  | [] => .stop []
  | s :: rest =>
    match s.data with
    | '-' :: c :: cs =>
      if c == '-' && cs.isEmpty then .stop rest
      else
        let name := if c == '-' then cs else c :: cs
        match name with
        | [] => .fail
        | n0 :: _ =>
          if n0 == '-' || n0 == '=' then .fail
          else
            let nv : List Char × Option (List Char) :=
              match splitAtEquals name with
              | some (n, v) => (n, some v)
              | none => (name, none)
            if formal.contains (String.mk nv.1) then
              match nv.2, rest with
              | some v, _ => .set (String.mk nv.1) (String.mk v) rest
              | none, v :: rest1 => .set (String.mk nv.1) v rest1
              | none, [] => .fail
            else .fail
    | _ => .stop (s :: rest)

/-- Go's `flag.(*FlagSet).Parse` followed by `Args()`: repeat `parseOne` until it
stops or fails; a failure shows the usage text. `fuel` bounds the number of
steps; each step consumes an argument. -/
def parseLoop (formal : List String) (usage : String) :
    Nat → List String → List (String × String) → ParseOutcome
  | 0, _, _ => .failed [usage]
  | fuel + 1, args, sets =>
    match parseOne formal args with
    | .stop rest => .parsed sets rest
    | .fail => .failed [usage]
    | .set n v rest => parseLoop formal usage fuel rest (sets ++ [(n, v)])

/-- Parser for a flag set holding exactly the two flags registered by `Run`,
with `flags.Usage` set as on line 28. -/
def readFlagsParse (generalOptionsUsage : String) (args : List String) : ParseOutcome :=
  parseLoop ["format", "field"] (Help generalOptionsUsage) (args.length + 1) args []

/-! ## Concrete environments -/

/-- A store holding one secret, with data `data`, at `secret/foo`. -/
def storeWith (data : List (String × Value)) (path : String) : Option Secret × Option String :=
  if path == "secret/foo" then (some ⟨data⟩, none) else (none, none)

/-- A store whose every read fails with the error `e`. -/
def brokenStore (e : String) (_path : String) : Option Secret × Option String :=
  (none, some e)

/-- An environment with the two-flag parser, a Formatter that returns `code`,
and the given Ui type, client result and store. -/
def envWith (uiType : String) (client : Option String)
    (read : String → Option Secret × Option String) (code : Int) : Env :=
  { flagsParse := readFlagsParse ""
    uiType := uiType
    generalOptionsUsage := ""
    Client := client
    Read := read
    OutputSecret := fun _ _ => code }

/-! ## Lemmas on `Fprintf` -/

theorem parsenum_length (cs : List Char) (num : Nat) (isnum : Bool) :
    (parsenum cs num isnum).2.2.length ≤ cs.length := by
  induction cs generalizing num isnum with
  | nil => simp [parsenum]
  | cons c cs ih =>
    unfold parsenum
    split
    · split
      · simp
      · exact Nat.le_succ_of_le (ih _ _)
    · simp

theorem argNumber_length (cs : List Char) (good : Bool) :
    (argNumber cs good).1.length ≤ cs.length := by
  unfold argNumber
  split
  · simp
  · simp

theorem doWidth_length (cs : List Char) (afterIndex good : Bool) :
    (doWidth cs afterIndex good).2.1.length ≤ cs.length := by
  unfold doWidth
  split
  · simp
  · exact parsenum_length _ _ _

theorem doPrecision_length (cs : List Char) (afterIndex good : Bool) :
    (doPrecision cs afterIndex good).2.1.length ≤ cs.length := by
  unfold doPrecision
  split
  · rename_i t
    have h1 := argNumber_length t (good && !afterIndex)
    generalize argNumber t (good && !afterIndex) = A at h1
    obtain ⟨t1, afterIndex1, good1⟩ := A
    simp only at h1 ⊢
    split
    · simp only [List.length_cons] at h1 ⊢
      omega
    · have h2 := parsenum_length t1 0 false
      generalize parsenum t1 0 false = N at h2
      obtain ⟨n, isnum, t2⟩ := N
      simp only [List.length_cons] at h2 ⊢
      omega
  · simp

theorem doVerbChar_length (cs : List Char) (good : Bool) :
    (doVerbChar cs good).2.length ≤ cs.length := by
  unfold doVerbChar
  split
  · simp
  · split
    · simp
    · split <;> simp

/-- Processing a verb never leaves more text than it was given. -/
theorem doVerb_length (cs : List Char) : (doVerb cs).2.length ≤ cs.length := by
  have h1 : (cs.dropWhile isFlagChar).length ≤ cs.length :=
    (List.dropWhile_sublist _).length_le
  have h2 := argNumber_length (cs.dropWhile isFlagChar) true
  generalize hA : argNumber (cs.dropWhile isFlagChar) true = A at h2
  obtain ⟨s2, afterIndex2, good2⟩ := A
  have h3 := doWidth_length s2 afterIndex2 good2
  generalize hW : doWidth s2 afterIndex2 good2 = W at h3
  obtain ⟨out3, s3, afterIndex3, good3⟩ := W
  have h5 := doPrecision_length s3 afterIndex3 good3
  generalize hP : doPrecision s3 afterIndex3 good3 = P at h5
  obtain ⟨out5, s5, afterIndex5, good5⟩ := P
  have h6 : (if !afterIndex5 then argNumber s5 good5 else (s5, afterIndex5, good5)).1.length
      ≤ s5.length := by
    split
    · exact argNumber_length _ _
    · simp
  generalize hI : (if !afterIndex5 then argNumber s5 good5 else (s5, afterIndex5, good5)) = I
    at h6
  obtain ⟨s6, found6, good6⟩ := I
  have h7 := doVerbChar_length s6 good6
  simp only [doVerb, hA, hW, hP, hI]
  simp only at h2 h3 h5 h6
  omega

/-- Fuel beyond the length of the format does not change what `doPrintf`
writes: the loop never runs out of fuel in `Fprintf`. -/
theorem doPrintf_fuel (fuel : Nat) (cs : List Char) (h : cs.length < fuel) :
    doPrintf fuel cs = doPrintf (cs.length + 1) cs := by
  induction fuel using Nat.strong_induction_on generalizing cs with
  | _ fuel ih =>
    match fuel, cs with
    | 0, _ => omega
    | _ + 1, [] => simp [doPrintf]
    | fuel + 1, c :: cs =>
      have hlen : cs.length < fuel := by simpa using h
      simp only [doPrintf, List.length_cons]
      split
      · have hv := doVerb_length cs
        generalize doVerb cs = V at hv
        obtain ⟨out, left⟩ := V
        simp only at hv ⊢
        rw [ih fuel (by omega) left (by omega),
          ih (cs.length + 1) (by omega) left (by omega)]
      · rw [ih fuel (by omega) cs hlen]

/-- A format without percent sign is written as it is. -/
theorem doPrintf_no_percent (cs : List Char) (h : '%' ∉ cs) :
    doPrintf (cs.length + 1) cs = cs := by
  induction cs with
  | nil => rfl
  | cons c cs ih =>
    have hc : c ≠ '%' := fun hc => h (by simp [hc])
    have hcs : '%' ∉ cs := fun hm => h (by simp [hm])
    simp [doPrintf, hc, ih hcs]

/-- The function `Fprintf` writes a format without percent sign as it is. -/
theorem Fprintf_no_percent (v : String) (h : '%' ∉ v.data) : Fprintf v = v := by
  obtain ⟨cs⟩ := v
  simp only [Fprintf, String.length]
  rw [doPrintf_no_percent cs h]

/-! ## Lemmas on argument validation and path normalisation -/

theorem argsInvalid_single (p : String) (hp : p ≠ "") : argsInvalid [p] = .ok false := by
  obtain ⟨cs⟩ := p
  cases cs with
  | nil => exact absurd rfl hp
  | cons c cs => simp [argsInvalid, argAt0, String.length]

theorem argsInvalid_not_single (rest : List String)
    (h : ¬ ∃ p, rest = [p] ∧ p ≠ "") : argsInvalid rest = .ok true := by
  match rest with
  | [] => simp [argsInvalid]
  | [p] =>
    have hp : p = "" := by
      by_contra hne
      exact h ⟨p, rfl, hne⟩
    subst hp
    simp [argsInvalid, argAt0]
  | _ :: _ :: _ => simp [argsInvalid]

theorem argsInvalid_ok_false (rest : List String) (h : argsInvalid rest = .ok false) :
    ∃ p, rest = [p] ∧ p ≠ "" := by
  by_contra hne
  rw [argsInvalid_not_single rest hne] at h
  simp at h

theorem normalizePath_single (p : String) (hp : p ≠ "") :
    normalizePath [p] = .ok (withoutLeadingSlash p) := by
  obtain ⟨cs⟩ := p
  cases cs with
  | nil => exact absurd rfl hp
  | cons c cs =>
    by_cases hc : c = '/'
    · subst hc
      simp [normalizePath, argAt0, charAt0, sliceFrom1, withoutLeadingSlash]
    · simp [normalizePath, argAt0, charAt0, withoutLeadingSlash, hc]

/-- The value of `Run` after a successful parse that left exactly one non-empty positional
argument: the code from line 45 on, at the normalised path. -/
theorem Run_valid (env : Env) (argv : List String) (sets : List (String × String))
    (p : String) (hparse : env.flagsParse argv = .parsed sets [p]) (hp : p ≠ "") :
    Run env argv =
      match env.Client with
      | some err =>
        ⟨.returned 2, [.clientAcquire, .uiError ("Error initializing client: " ++ err)]⟩
      | none =>
        match env.Read (withoutLeadingSlash p) with
        | (_, some err) =>
          ⟨.returned 1, [.clientAcquire, .storeRead (withoutLeadingSlash p),
            .uiError ("Error reading " ++ withoutLeadingSlash p ++ ": " ++ err)]⟩
        | (none, none) =>
          ⟨.returned 1, [.clientAcquire, .storeRead (withoutLeadingSlash p),
            .uiError ("No value found at " ++ withoutLeadingSlash p)]⟩
        | (some secret, none) =>
          output env (flagValue sets "format" "table") (flagValue sets "field" "") secret
            [.clientAcquire, .storeRead (withoutLeadingSlash p)] := by
  simp only [Run, hparse, argsInvalid_single p hp, normalizePath_single p hp]

/-- The value of `Run` after a successful parse that did not leave exactly one non-empty
positional argument. -/
theorem Run_invalid (env : Env) (argv : List String) (sets : List (String × String))
    (rest : List String) (hparse : env.flagsParse argv = .parsed sets rest)
    (hbad : ¬ ∃ p, rest = [p] ∧ p ≠ "") :
    Run env argv =
      ⟨.returned 1,
        [.uiError "read expects one argument", .uiError (Help env.generalOptionsUsage)]⟩ := by
  simp only [Run, hparse, argsInvalid_not_single rest hbad]

/-- A flag that is never set keeps the value it had. -/
theorem flagValue_unset (sets : List (String × String)) (name cur : String)
    (h : ∀ nv ∈ sets, nv.1 ≠ name) : flagValue sets name cur = cur := by
  induction sets generalizing cur with
  | nil => rfl
  | cons nv sets ih =>
    have h1 : nv.1 ≠ name := h nv (by simp)
    have h2 : ∀ x ∈ sets, x.1 ≠ name := fun x hx => h x (by simp [hx])
    have := ih cur h2
    simpa [flagValue, List.foldl, h1] using this

/-- A flag holds the value of the last `Set` made on it. -/
theorem flagValue_last (pre post : List (String × String)) (name v dflt : String)
    (h : ∀ nv ∈ post, nv.1 ≠ name) :
    flagValue (pre ++ (name, v) :: post) name dflt = v := by
  have := flagValue_unset post name v h
  simpa [flagValue, List.foldl_append] using this

/-- A key that no entry of an association list carries is not found. -/
theorem lookup_absent (data : List (String × Value)) (f : String)
    (h : ∀ kv ∈ data, kv.1 ≠ f) : data.lookup f = none := by
  induction data with
  | nil => rfl
  | cons kv data ih =>
    obtain ⟨k, v⟩ := kv
    have h1 : k ≠ f := h (k, v) (by simp)
    have h1b : (f == k) = false := by simpa using fun hfk => h1 hfk.symm
    have h2 : ∀ x ∈ data, x.1 ≠ f := fun x hx => h x (by simp [hx])
    simp [List.lookup, h1b, ih h2]

/-- The function `output` returns 2 only as the exit code of the Formatter. -/
theorem output_returned_two (env : Env) (format field : String) (secret : Secret)
    (done : List Event) (h : (output env format field secret done).outcome = .returned 2) :
    (output env format field secret done).trace = done ++ [.outputSecret format secret] := by
  revert h
  unfold output
  split
  · split
    · split
      · simp
      · split <;> simp
    · simp
  · simp

/-- The function `output` reads nothing from the store. -/
theorem output_readPaths (env : Env) (format field : String) (secret : Secret)
    (done : List Event) :
    readPaths (output env format field secret done).trace = readPaths done := by
  unfold output
  split
  · split
    · split
      · rfl
      · split <;> simp [readPaths]
    · simp [readPaths]
  · simp [readPaths]

/-- After a successful parse and validation, with a client at hand, exactly
one path is read: the normalised one. -/
theorem readPaths_valid (env : Env) (argv : List String) (sets : List (String × String))
    (p : String) (hparse : env.flagsParse argv = .parsed sets [p]) (hp : p ≠ "")
    (hclient : env.Client = none) :
    readPaths (Run env argv).trace = [withoutLeadingSlash p] := by
  rw [Run_valid env argv sets p hparse hp, hclient]
  simp only
  split
  · simp [readPaths]
  · simp [readPaths]
  · rw [output_readPaths]
    simp [readPaths]

/-- Whatever the arguments, a path that `Run` reads is the normalised form of
the single positional argument. -/
theorem readPaths_mem (env : Env) (argv : List String) (q : String)
    (hq : q ∈ readPaths (Run env argv).trace) :
    ∃ sets p, env.flagsParse argv = .parsed sets [p] ∧ p ≠ "" ∧ q = withoutLeadingSlash p := by
  cases hparse : env.flagsParse argv with
  | failed diag =>
    simp [Run, hparse, readPaths] at hq
  | parsed sets rest =>
    by_cases hvalid : ∃ p, rest = [p] ∧ p ≠ ""
    · obtain ⟨p, rfl, hp⟩ := hvalid
      refine ⟨sets, p, rfl, hp, ?_⟩
      cases hclient : env.Client with
      | some err =>
        rw [Run_valid env argv sets p hparse hp, hclient] at hq
        simp [readPaths] at hq
      | none =>
        rw [readPaths_valid env argv sets p hparse hp hclient] at hq
        simpa using hq
    · rw [Run_invalid env argv sets rest hparse hvalid] at hq
      simp [readPaths] at hq

/-! ## C2: one leading separator is stripped -/

/-- C2: for a positional path argument `p` accepted by `Run` (the only
positional argument, non-empty) and an available client, the path handed to
`SecretStore.Read` is `p` without its first character when `p` begins with
`/`, and `p` itself otherwise; only one leading `/` is removed, so a second
leading `/` stays. -/
theorem C2_read_path_strips_one_leading_separator (env : Env) (argv : List String)
    (sets : List (String × String)) (p : String)
    (hparse : env.flagsParse argv = .parsed sets [p]) (hp : p ≠ "")
    (hclient : env.Client = none) :
    (∀ cs, p.data = '/' :: cs → readPaths (Run env argv).trace = [String.mk cs]) ∧
    (p.data.head? ≠ some '/' → readPaths (Run env argv).trace = [p]) ∧
    (∀ cs, p.data = '/' :: '/' :: cs →
      readPaths (Run env argv).trace = [String.mk ('/' :: cs)]) := by
  rw [readPaths_valid env argv sets p hparse hp hclient]
  refine ⟨?_, ?_, ?_⟩
  · intro cs hcs
    simp [withoutLeadingSlash, hcs]
  · intro hhead
    unfold withoutLeadingSlash
    split
    · rename_i cs hcs
      simp [hcs] at hhead
    · rfl
  · intro cs hcs
    simp [withoutLeadingSlash, hcs]

/-- C2, at a concrete input: `/secret/foo` is read as `secret/foo`. -/
theorem C2_witness :
    readPaths (Run (envWith "*cli.BasicUi" none (storeWith [("bar", .str "baz")]) 0)
      ["/secret/foo"]).trace = ["secret/foo"] :=
  (C2_read_path_strips_one_leading_separator
    (envWith "*cli.BasicUi" none (storeWith [("bar", .str "baz")]) 0)
    ["/secret/foo"] [] "/secret/foo" rfl (by decide) rfl).1 "secret/foo".data rfl

/-! ## C3: the path handed to the store and the separator -/

/-- C3 fails as stated: for the single positional argument `//secret/foo` the
path handed to `SecretStore.Read` is `/secret/foo`, which begins with `/`. -/
theorem C3_counterexample :
    readPaths (Run (envWith "*cli.BasicUi" none (storeWith [("bar", .str "baz")]) 0)
      ["//secret/foo"]).trace = ["/secret/foo"] ∧
    "/secret/foo".data.head? = some '/' := by
  decide

/-- C3, amended: for every argument vector whose positional argument does not
begin with two `/` characters, no path handed to `SecretStore.Read` begins
with `/`. -/
theorem C3_read_path_no_leading_separator (env : Env) (argv : List String)
    (hsingle : ∀ sets p cs, env.flagsParse argv = .parsed sets [p] →
      p.data ≠ '/' :: '/' :: cs)
    (q : String) (hq : q ∈ readPaths (Run env argv).trace) :
    q.data.head? ≠ some '/' := by
  obtain ⟨sets, p, hparse, _, rfl⟩ := readPaths_mem env argv q hq
  have hno := fun cs => hsingle sets p cs hparse
  unfold withoutLeadingSlash
  split
  · rename_i cs hcs
    cases cs with
    | nil => simp
    | cons c cs =>
      intro hhead
      simp at hhead
      subst hhead
      exact hno cs hcs
  · rename_i hns
    intro hhead
    cases hd : p.data with
    | nil => simp [hd] at hhead
    | cons c cs =>
      simp [hd] at hhead
      subst hhead
      exact hns cs hd

/-- C3 amended, at a concrete input: `/secret/foo` is read as `secret/foo`,
which does not begin with `/`. -/
theorem C3_witness :
    "secret/foo" ∈ readPaths (Run (envWith "*cli.BasicUi" none
      (storeWith [("bar", .str "baz")]) 0) ["/secret/foo"]).trace ∧
    "secret/foo".data.head? ≠ some '/' :=
  ⟨by decide, C3_read_path_no_leading_separator
    (envWith "*cli.BasicUi" none (storeWith [("bar", .str "baz")]) 0) ["/secret/foo"]
    (by
      intro sets p cs hparse
      have h : ParseOutcome.parsed [] ["/secret/foo"] = ParseOutcome.parsed sets [p] := hparse
      injection h with _ h2
      injection h2 with h3 _
      subst h3
      intro h
      have h2 : ("/secret/foo".data.drop 1).head? = some '/' := by rw [h]; rfl
      exact absurd h2 (by decide))
    "secret/foo" (by decide)⟩

/-! ## C4: wrong number of positional arguments -/

/-- C4: when the positional arguments left by option parsing are not exactly
one non-empty string, `Run` returns 1 after reporting the usage error, and it
neither acquires a client nor reads from the store, whatever the client and
the store of the environment would have answered. -/
theorem C4_bad_positional_arguments (env : Env) (argv : List String)
    (sets : List (String × String)) (rest : List String)
    (hparse : env.flagsParse argv = .parsed sets rest)
    (hbad : ¬ ∃ p, rest = [p] ∧ p ≠ "") :
    (Run env argv).outcome = .returned 1 ∧
    (Run env argv).trace =
      [.uiError "read expects one argument", .uiError (Help env.generalOptionsUsage)] ∧
    Event.clientAcquire ∉ (Run env argv).trace ∧
    readPaths (Run env argv).trace = [] := by
  rw [Run_invalid env argv sets rest hparse hbad]
  simp [readPaths]

/-- C4, at concrete inputs: no positional argument. -/
theorem C4_witness :
    (Run (envWith "*cli.BasicUi" none (storeWith [("bar", .str "baz")]) 0) []).outcome
      = .returned 1 :=
  (C4_bad_positional_arguments
    (envWith "*cli.BasicUi" none (storeWith [("bar", .str "baz")]) 0) [] [] [] rfl
    (by simp)).1

/-! ## C5: client initialisation failure -/

/-- C5: when argument validation passes and acquiring the client fails with
cause `e`, `Run` returns 2, reports `Error initializing client: e` through
`Ui.Error` and does not read from the store; and whenever `Run` returns 2
without having called the Formatter, the arguments were parsed and passed
validation, the client was asked for and failed with some cause `e`, and the
call is exactly that failure branch (lines 45-50). -/
theorem C5_client_failure (env : Env) (argv : List String) :
    (∀ sets p e, env.flagsParse argv = .parsed sets [p] → p ≠ "" → env.Client = some e →
      Run env argv =
        ⟨.returned 2, [.clientAcquire, .uiError ("Error initializing client: " ++ e)]⟩ ∧
      readPaths (Run env argv).trace = []) ∧
    ((Run env argv).outcome = .returned 2 → formatterCalls (Run env argv).trace = [] →
      ∃ sets p e, env.flagsParse argv = .parsed sets [p] ∧ p ≠ "" ∧
        env.Client = some e ∧
        Run env argv =
          ⟨.returned 2, [.clientAcquire, .uiError ("Error initializing client: " ++ e)]⟩) := by
  constructor
  · intro sets p e hparse hp hclient
    rw [Run_valid env argv sets p hparse hp, hclient]
    simp [readPaths]
  · intro hout hfmt
    cases hparse : env.flagsParse argv with
    | failed diag => simp [Run, hparse] at hout
    | parsed sets rest =>
      by_cases hvalid : ∃ p, rest = [p] ∧ p ≠ ""
      · obtain ⟨p, rfl, hp⟩ := hvalid
        cases hclient : env.Client with
        | some err =>
          refine ⟨sets, p, err, rfl, hp, rfl, ?_⟩
          rw [Run_valid env argv sets p hparse hp, hclient]
        | none =>
          exfalso
          rw [Run_valid env argv sets p hparse hp, hclient] at hout hfmt
          rcases hr : env.Read (withoutLeadingSlash p) with ⟨s, err⟩
          rw [hr] at hout hfmt
          cases err with
          | some e => simp at hout
          | none =>
            cases s with
            | none => simp at hout
            | some secret =>
              simp only at hout hfmt
              rw [output_returned_two env _ _ secret _ hout] at hfmt
              simp [formatterCalls] at hfmt
      · rw [Run_invalid env argv sets rest hparse hvalid] at hout
        simp at hout

/-- C5, at a concrete input: the client cannot be built, `Run` returns 2, and
from that return code alone the failure branch is recovered. -/
theorem C5_witness :
    Run (envWith "*cli.BasicUi" (some "no address") (storeWith [("bar", .str "baz")]) 0)
      ["secret/foo"] =
      ⟨.returned 2, [.clientAcquire, .uiError "Error initializing client: no address"]⟩ ∧
    ∃ sets p e,
      (envWith "*cli.BasicUi" (some "no address") (storeWith [("bar", .str "baz")]) 0).flagsParse
        ["secret/foo"] = .parsed sets [p] ∧ p ≠ "" ∧
      (envWith "*cli.BasicUi" (some "no address") (storeWith [("bar", .str "baz")]) 0).Client
        = some e ∧
      Run (envWith "*cli.BasicUi" (some "no address") (storeWith [("bar", .str "baz")]) 0)
        ["secret/foo"] =
        ⟨.returned 2, [.clientAcquire, .uiError ("Error initializing client: " ++ e)]⟩ :=
  ⟨((C5_client_failure
      (envWith "*cli.BasicUi" (some "no address") (storeWith [("bar", .str "baz")]) 0)
      ["secret/foo"]).1 [] "secret/foo" "no address" rfl (by decide) rfl).1,
   (C5_client_failure
      (envWith "*cli.BasicUi" (some "no address") (storeWith [("bar", .str "baz")]) 0)
      ["secret/foo"]).2 (by decide) (by decide)⟩

/-! ## C6: the store yields no secret -/

/-- C6: on a valid invocation with a client at hand, when `Read` returns an
error `e` the call returns 1 after reporting `Error reading <path>: e`, and
when `Read` returns nil without error it returns 1 after reporting
`No value found at <path>`; `<path>` is the normalised path, and in both cases
the trace holds no output action (no write to standard output, no `Ui.Output`,
no Formatter call). -/
theorem C6_no_secret (env : Env) (argv : List String) (sets : List (String × String))
    (p : String) (hparse : env.flagsParse argv = .parsed sets [p]) (hp : p ≠ "")
    (hclient : env.Client = none) :
    (∀ s e, env.Read (withoutLeadingSlash p) = (s, some e) →
      Run env argv = ⟨.returned 1, [.clientAcquire, .storeRead (withoutLeadingSlash p),
        .uiError ("Error reading " ++ withoutLeadingSlash p ++ ": " ++ e)]⟩) ∧
    (env.Read (withoutLeadingSlash p) = (none, none) →
      Run env argv = ⟨.returned 1, [.clientAcquire, .storeRead (withoutLeadingSlash p),
        .uiError ("No value found at " ++ withoutLeadingSlash p)]⟩) ∧
    ((env.Read (withoutLeadingSlash p)).1 = none ∨ (env.Read (withoutLeadingSlash p)).2 ≠ none →
      (Run env argv).outcome = .returned 1 ∧
      stdoutBytes (Run env argv).trace = "" ∧
      formatterCalls (Run env argv).trace = [] ∧
      ∀ ev ∈ (Run env argv).trace, ev.isOutput = false) := by
  rw [Run_valid env argv sets p hparse hp, hclient]
  refine ⟨?_, ?_, ?_⟩
  · intro s e hread
    simp [hread]
  · intro hread
    simp [hread]
  · intro hread
    rcases hr : env.Read (withoutLeadingSlash p) with ⟨s, err⟩
    rw [hr] at hread
    cases err with
    | some e => simp [stdoutBytes, formatterCalls, Event.isOutput]
    | none =>
      cases s with
      | none => simp [stdoutBytes, formatterCalls, Event.isOutput]
      | some s => simp at hread

/-- C6, at a concrete input: nothing is stored at `secret/nope`. -/
theorem C6_witness :
    Run (envWith "*cli.BasicUi" none (storeWith [("bar", .str "baz")]) 0) ["/secret/nope"] =
      ⟨.returned 1, [.clientAcquire, .storeRead "secret/nope",
        .uiError "No value found at secret/nope"]⟩ :=
  (C6_no_secret (envWith "*cli.BasicUi" none (storeWith [("bar", .str "baz")]) 0)
    ["/secret/nope"] [] "/secret/nope" rfl (by decide) rfl).2.1 rfl

/-! ## C7: the requested field is absent -/

/-- C7: on a valid invocation with a non-empty `-field` option `f`, when
`Read` returns a secret whose data has no key `f`, `Run` returns 1 and its only
action after the read is reporting `Field f not present in secret` through
`Ui.Error`: nothing is written to standard output and the Formatter is not
called. -/
theorem C7_field_absent (env : Env) (argv : List String) (sets : List (String × String))
    (p f : String) (secret : Secret)
    (hparse : env.flagsParse argv = .parsed sets [p]) (hp : p ≠ "")
    (hclient : env.Client = none)
    (hf : flagValue sets "field" "" = f) (hne : f ≠ "")
    (hread : env.Read (withoutLeadingSlash p) = (some secret, none))
    (habsent : ∀ kv ∈ secret.Data, kv.1 ≠ f) :
    Run env argv = ⟨.returned 1, [.clientAcquire, .storeRead (withoutLeadingSlash p),
      .uiError ("Field " ++ f ++ " not present in secret")]⟩ ∧
    stdoutBytes (Run env argv).trace = "" ∧
    formatterCalls (Run env argv).trace = [] ∧
    ∀ ev ∈ (Run env argv).trace, ev.isOutput = false := by
  have hrun : Run env argv = ⟨.returned 1, [.clientAcquire, .storeRead (withoutLeadingSlash p),
      .uiError ("Field " ++ f ++ " not present in secret")]⟩ := by
    rw [Run_valid env argv sets p hparse hp, hclient, hread]
    simp [output, hf, hne, lookup_absent secret.Data f habsent]
  rw [hrun]
  simp [stdoutBytes, formatterCalls, Event.isOutput]

/-- C7, at a concrete input: the secret has a field `bar` and none named
`missing`. -/
theorem C7_witness :
    Run (envWith "*cli.BasicUi" none (storeWith [("bar", .str "baz")]) 0)
      ["-field=missing", "secret/foo"] =
      ⟨.returned 1, [.clientAcquire, .storeRead "secret/foo",
        .uiError "Field missing not present in secret"]⟩ :=
  (C7_field_absent (envWith "*cli.BasicUi" none (storeWith [("bar", .str "baz")]) 0)
    ["-field=missing", "secret/foo"] [("field", "missing")] "secret/foo" "missing"
    ⟨[("bar", .str "baz")]⟩ rfl (by decide) rfl rfl (by decide) rfl (by decide)).1

/-! ## C8: delegation to the Formatter -/

/-- C8: on a valid invocation with an empty `-field` option, when `Read`
returns a secret `s`, `Run` calls the Formatter exactly once, with the value
of the `-format` flag and `s`, and returns the Formatter's exit code. The
format is the value of the last `-format` given, whatever it is, and `table`
when none was given. -/
theorem C8_formatter_delegation (env : Env) (argv : List String)
    (sets : List (String × String)) (p : String) (s : Secret)
    (hparse : env.flagsParse argv = .parsed sets [p]) (hp : p ≠ "")
    (hclient : env.Client = none)
    (hfield : flagValue sets "field" "" = "")
    (hread : env.Read (withoutLeadingSlash p) = (some s, none)) :
    Run env argv =
      ⟨.returned (env.OutputSecret (flagValue sets "format" "table") s),
       [.clientAcquire, .storeRead (withoutLeadingSlash p),
        .outputSecret (flagValue sets "format" "table") s]⟩ ∧
    formatterCalls (Run env argv).trace = [(flagValue sets "format" "table", s)] ∧
    ((∀ nv ∈ sets, nv.1 ≠ "format") → flagValue sets "format" "table" = "table") ∧
    (∀ pre v post, sets = pre ++ ("format", v) :: post → (∀ nv ∈ post, nv.1 ≠ "format") →
      flagValue sets "format" "table" = v) := by
  have hrun : Run env argv =
      ⟨.returned (env.OutputSecret (flagValue sets "format" "table") s),
       [.clientAcquire, .storeRead (withoutLeadingSlash p),
        .outputSecret (flagValue sets "format" "table") s]⟩ := by
    rw [Run_valid env argv sets p hparse hp, hclient, hread]
    simp [output, hfield]
  rw [hrun]
  refine ⟨rfl, by simp [formatterCalls], ?_, ?_⟩
  · exact flagValue_unset sets "format" "table"
  · intro pre v post hsets hpost
    rw [hsets]
    exact flagValue_last pre post "format" v "table" hpost

/-- C8, at a concrete input: the format `bogus` reaches the Formatter as it
is, and the Formatter's exit code 7 is the exit code of `Run`. -/
theorem C8_witness :
    Run (envWith "*cli.BasicUi" none (storeWith [("bar", .str "baz")]) 7)
      ["-format=bogus", "secret/foo"] =
      ⟨.returned 7, [.clientAcquire, .storeRead "secret/foo",
        .outputSecret "bogus" ⟨[("bar", .str "baz")]⟩]⟩ :=
  (C8_formatter_delegation (envWith "*cli.BasicUi" none (storeWith [("bar", .str "baz")]) 7)
    ["-format=bogus", "secret/foo"] [("format", "bogus")] "secret/foo"
    ⟨[("bar", .str "baz")]⟩ rfl (by decide) rfl rfl rfl).1

/-! ## C10: indexing and slicing of the path stay in range -/

/-- C10: `Run` never ends in an index or slice out-of-range panic; whenever
the guard of line 34 lets the arguments through there is exactly one
positional argument, of length at least 1, so that `path[0]` and `path[1:]`
are both in range; and the argument `/` is normalised to the empty path. -/
theorem C10_path_index_in_range (env : Env) (argv : List String) :
    (Run env argv).outcome ≠ .panicked .indexOutOfRange ∧
    (Run env argv).outcome ≠ .panicked .sliceOutOfRange ∧
    (∀ rest, argsInvalid rest = .ok false →
      ∃ p, rest = [p] ∧ 1 ≤ p.length ∧ (∃ c, charAt0 p = .ok c) ∧
        (∃ q, sliceFrom1 p = .ok q) ∧ ∃ path, normalizePath rest = .ok path) ∧
    normalizePath ["/"] = .ok "" := by
  have hout : ∀ (format field : String) (secret : Secret) (done : List Event) (k : Panic),
      k ≠ .typeAssertion → (output env format field secret done).outcome ≠ .panicked k := by
    intro format field secret done k hk
    unfold output
    split
    · split
      · rename_i val _
        cases val <;> simp [assertString] <;> first | (split <;> simp) | exact fun h => hk h.symm
      · simp
    · simp
  have hrun : ∀ k : Panic, k ≠ .typeAssertion → (Run env argv).outcome ≠ .panicked k := by
    intro k hk
    cases hparse : env.flagsParse argv with
    | failed diag => simp [Run, hparse]
    | parsed sets rest =>
      by_cases hvalid : ∃ p, rest = [p] ∧ p ≠ ""
      · obtain ⟨p, rfl, hp⟩ := hvalid
        rw [Run_valid env argv sets p hparse hp]
        split
        · simp
        · split
          · simp
          · simp
          · exact hout _ _ _ _ k hk
      · rw [Run_invalid env argv sets rest hparse hvalid]
        simp
  refine ⟨hrun _ (by decide), hrun _ (by decide), ?_, rfl⟩
  intro rest hrest
  obtain ⟨p, rfl, hp⟩ := argsInvalid_ok_false rest hrest
  refine ⟨p, rfl, ?_, ?_, ?_, _, normalizePath_single p hp⟩
  · obtain ⟨cs⟩ := p
    cases cs with
    | nil => exact absurd rfl hp
    | cons c cs => simp [String.length]
  · obtain ⟨cs⟩ := p
    cases cs with
    | nil => exact absurd rfl hp
    | cons c cs => exact ⟨c, rfl⟩
  · obtain ⟨cs⟩ := p
    cases cs with
    | nil => exact absurd rfl hp
    | cons c cs => exact ⟨⟨cs⟩, rfl⟩

/-- C10, at a concrete input: the single argument `/` passes the guard and is
read as the empty path. -/
theorem C10_witness :
    argsInvalid ["/"] = .ok false ∧
    ∃ p, ["/"] = [p] ∧ 1 ≤ p.length ∧ (∃ c, charAt0 p = .ok c) ∧
      (∃ q, sliceFrom1 p = .ok q) ∧ ∃ path, normalizePath ["/"] = .ok path :=
  ⟨rfl, (C10_path_index_in_range
    (envWith "*cli.BasicUi" none (storeWith [("bar", .str "baz")]) 0) ["/"]).2.2.1 ["/"] rfl⟩

/-! ## C1 and C9: the single field branch -/

/-- What `Run` does on a valid invocation with a non-empty `-field` option `f`
when the secret maps `f` to the string `v`: it returns 0 after either writing
`Fprintf v` to standard output (Ui of type `*cli.BasicUi`) or calling
`Ui.Output v` (any other Ui). -/
theorem field_present_string (env : Env) (argv : List String)
    (sets : List (String × String)) (p f v : String) (secret : Secret)
    (hparse : env.flagsParse argv = .parsed sets [p]) (hp : p ≠ "")
    (hclient : env.Client = none)
    (hf : flagValue sets "field" "" = f) (hne : f ≠ "")
    (hread : env.Read (withoutLeadingSlash p) = (some secret, none))
    (hval : secret.Data.lookup f = some (.str v)) :
    Run env argv =
      ⟨.returned 0, [.clientAcquire, .storeRead (withoutLeadingSlash p),
        if env.uiType = "*cli.BasicUi" then .stdoutWrite (Fprintf v) else .uiOutput v]⟩ := by
  rw [Run_valid env argv sets p hparse hp, hclient, hread]
  simp only [output, hf, hval, assertString]
  by_cases hui : env.uiType = "*cli.BasicUi"
  · simp [hne, hui]
  · simp [hne, hui]

/-- What `Run` does on a valid invocation with a non-empty `-field` option `f`
when the secret maps `f` to a value that is not a string: the type assertion
panics, after the read and before any output. -/
theorem field_present_not_string (env : Env) (argv : List String)
    (sets : List (String × String)) (p f : String) (val : Value) (secret : Secret)
    (hparse : env.flagsParse argv = .parsed sets [p]) (hp : p ≠ "")
    (hclient : env.Client = none)
    (hf : flagValue sets "field" "" = f) (hne : f ≠ "")
    (hread : env.Read (withoutLeadingSlash p) = (some secret, none))
    (hval : secret.Data.lookup f = some val) (hns : ∀ v, val ≠ .str v) :
    Run env argv =
      ⟨.panicked .typeAssertion, [.clientAcquire, .storeRead (withoutLeadingSlash p)]⟩ := by
  rw [Run_valid env argv sets p hparse hp, hclient, hread]
  simp only [output, hf, hval]
  cases val with
  | str v => exact absurd rfl (hns v)
  | _ => simp [hne, assertString]

/-- C1 fails on the code: with a Ui of type `*cli.BasicUi`, `-field=bar` and a
secret whose `bar` is the string `100%`, `Run` returns 0 but standard output
receives `100%!(NOVERB)`, not the value: the value is used as a format
string. -/
theorem C1_percent_value_is_altered :
    Run (envWith "*cli.BasicUi" none (storeWith [("bar", .str "100%")]) 0)
      ["-field=bar", "secret/foo"] =
      ⟨.returned 0, [.clientAcquire, .storeRead "secret/foo",
        .stdoutWrite "100%!(NOVERB)"]⟩ ∧
    stdoutBytes (Run (envWith "*cli.BasicUi" none (storeWith [("bar", .str "100%")]) 0)
      ["-field=bar", "secret/foo"]).trace ≠ "100%" := by
  decide

/-- C9 fails on the code: with `-field=ttl` and a secret whose `ttl` is the
number 3600, `Run` does not return: the type assertion `val.(string)`
panics. -/
theorem C9_number_value_panics :
    Run (envWith "*cli.BasicUi" none (storeWith [("ttl", .number 3600)]) 0)
      ["-field=ttl", "secret/foo"] =
      ⟨.panicked .typeAssertion, [.clientAcquire, .storeRead "secret/foo"]⟩ := by
  decide

end Vault.Command
